import Mathlib

/-!
Verification of the job-alert pipeline (`job-alert.py`).

Python strings are modelled as `List Char`; the module-level configuration
constants (`KEYWORDS`, `WORK_MODES`, `EXPERIENCE_KEYWORDS`) are gathered into a
`Globals` record threaded through every function that reads them, so that
properties quantifying over the configuration (in particular independence from
`WORK_MODES`) can be stated.  Network fetches are modelled by a `FetchResult`
value handed to each adapter: `requests.get` either yields a response with a
status code and a parsed body, or raises a timeout / connection error.
Python exceptions are modelled by `Except PyError`.
-/

namespace JobAlert

/-- Python's substring test `n in h` needs a raw prefix check first:
`isPrefixB n h` is true when `n` is an initial segment of `h`. -/
def isPrefixB : List Char → List Char → Bool
  | [], _ => true
  | _ :: _, [] => false
  | a :: as, b :: bs => a == b && isPrefixB as bs

/-- Python's `n in h` for strings: `n` occurs contiguously somewhere in `h`. -/
def containsSub (needle : List Char) : List Char → Bool
  | [] => needle.isEmpty
  | c :: rest => isPrefixB needle (c :: rest) || containsSub needle rest

/-- The module-level configuration constants of `job-alert.py`. -/
structure Globals where
  KEYWORDS : List Char
  WORK_MODES : List (List Char)
  EXPERIENCE_KEYWORDS : List (List Char)
  deriving Repr

/-- The constants as assigned at the top of `job-alert.py`. -/
def defaultGlobals : Globals where
  KEYWORDS := "software engineer OR \"web developer\" OR web dev".toList
  WORK_MODES := ["remote", "hybrid", "on-site"].map String.toList
  EXPERIENCE_KEYWORDS :=
    ["junior", "entry level", "entry-level", "graduate", "intern"].map String.toList

/-- `matches_experience(text)`: lowercase `text`, then test whether any
configured experience keyword occurs in it as a substring. -/
def matches_experience (g : Globals) (text : List Char) : Bool :=
  let t := text.map Char.toLower
  g.EXPERIENCE_KEYWORDS.any (fun k => containsSub k t)

/-- `matches_work_mode(text)`: lowercase `text`, then test whether any
configured work mode occurs in it as a substring. -/
def matches_work_mode (g : Globals) (text : List Char) : Bool :=
  let t := text.map Char.toLower
  g.WORK_MODES.any (fun m => containsSub m t)

/-- One normalized job posting record (the Python dict built by the adapters,
with keys title/company/location/salary/link/source/summary). -/
structure Posting where
  title : List Char
  company : List Char
  location : List Char
  salary : List Char
  link : List Char
  source : List Char
  summary : List Char
  deriving DecidableEq, Repr

/-- The loop of `consolidate_and_filter`: `seen` is the set of links already
encountered (membership is all that matters).  A link is added to `seen`
whether or not its record passes the experience re-filter. -/
def consolidateGo (g : Globals) (seen : List (List Char)) :
    List Posting → List Posting
  | [] => []
  | e :: rest =>
    if e.link ∈ seen then
      consolidateGo g seen rest
    else
      if matches_experience g ((e.title ++ [' '] ++ e.summary).map Char.toLower) then
        e :: consolidateGo g (e.link :: seen) rest
      else
        consolidateGo g (e.link :: seen) rest

/-- `consolidate_and_filter(entries)`: deduplicate by link (first occurrence
wins) and re-apply the entry-level filter to `title + ' ' + summary`. -/
def consolidate_and_filter (g : Globals) (entries : List Posting) :
    List Posting :=
  consolidateGo g [] entries

/-- Case-insensitive occurrence, as the spec words it: some contiguous slice of
`text` lowercases to `k`. -/
def containsCI (k text : List Char) : Prop :=
  ∃ pre mid post, text = pre ++ mid ++ post ∧ mid.map Char.toLower = k

/-! URL construction: `urllib.parse.urlencode` with its default
`quote_via=quote_plus` (also passed explicitly in `parse_indeed`). -/

def hexDigit (n : Nat) : Char :=
  if n < 10 then Char.ofNat (48 + n) else Char.ofNat (55 + n)

/-- UTF-8 encoding of one code point, as a list of byte values. -/
def utf8Bytes (c : Char) : List Nat :=
  let n := c.toNat
  if n < 0x80 then [n]
  else if n < 0x800 then [0xC0 + n / 64, 0x80 + n % 64]
  else if n < 0x10000 then [0xE0 + n / 4096, 0x80 + (n / 64) % 64, 0x80 + n % 64]
  else [0xF0 + n / 262144, 0x80 + (n / 4096) % 64, 0x80 + (n / 64) % 64,
    0x80 + n % 64]

def percentByte (b : Nat) : List Char :=
  ['%', hexDigit (b / 16), hexDigit (b % 16)]

/-- `quote_plus`: spaces become `+`; ASCII alphanumerics and `_.-~` pass
through; everything else is percent-encoded byte by byte. -/
def quote_plus (s : List Char) : List Char :=
  s.flatMap fun c =>
    if c = ' ' then ['+']
    else if c.isAlphanum || c = '_' || c = '.' || c = '-' || c = '~' then [c]
    else (utf8Bytes c).flatMap percentByte

def joinSep (sep : List Char) : List (List Char) → List Char
  | [] => []
  | [x] => x
  | x :: xs => x ++ sep ++ joinSep sep xs

def urlencode (params : List (List Char × List Char)) : List Char :=
  joinSep ['&'] (params.map fun p => quote_plus p.1 ++ ['='] ++ quote_plus p.2)

/-! The adapters.  A network fetch is a value handed to the adapter:
`requests.get` either returns a response (status code plus parsed body) or
raises a timeout / connection error, which `job-alert.py` does not catch. -/

/-- The Python exceptions that can escape the modelled functions. -/
inductive PyError where
  | requestTimeout
  | connectionError
  | typeError
  | keyError
  | valueError
  | fileNotFoundError
  deriving DecidableEq, Repr

/-- Outcome of `requests.get`: a response, or a raised exception. -/
inductive FetchResult (α : Type) where
  | response (status : Nat) (body : α)
  | timeout
  | netError
  deriving Repr

/-- An `<a>` element: its text and its optional `href` attribute. -/
structure Anchor where
  text : List Char
  href : Option (List Char)
  deriving DecidableEq, Repr

/-- One Indeed result card, as the fields the adapter selects from it:
`none` models a missing markup element. -/
structure IndeedCard where
  titleEl : Option (List Char)
  companyEl : Option (List Char)
  locEl : Option (List Char)
  linkEl : Option Anchor
  summaryEl : Option (List Char)
  deriving DecidableEq, Repr

def indeedUrl (g : Globals) (location : List Char) : List Char :=
  "https://www.indeed.com/jobs".toList ++
    '?' :: urlencode [("q".toList, g.KEYWORDS), ("l".toList, location),
      ("fromage".toList, "3".toList)]

/-- Field extraction for one Indeed card.  Every missing element is defaulted
(`'N/A'`, the input location, the search URL, or the empty summary), so
extraction never raises. -/
def indeedFields (url location : List Char) (card : IndeedCard) : Posting :=
  let title := card.titleEl.getD "N/A".toList
  let company := card.companyEl.getD "N/A".toList
  let loc := card.locEl.getD location
  let link :=
    match card.linkEl with
    | some a =>
      match a.href with
      | some h => if h.isEmpty then url else "https://www.indeed.com".toList ++ h
      | none => url
    | none => url
  let summary_text := card.summaryEl.getD []
  ⟨title, company, loc, "N/A".toList, link, "Indeed".toList, summary_text⟩

/-- The per-record filter of `parse_indeed`: keep the record when the
title+summary text or the company text alone matches. -/
def indeedRecord (g : Globals) (url location : List Char) (card : IndeedCard) :
    Option Posting :=
  let p := indeedFields url location card
  if matches_experience g (p.title ++ [' '] ++ p.summary) ||
      matches_experience g p.company then
    some p
  else
    none

def parse_indeed (g : Globals) (location : List Char)
    (r : FetchResult (List IndeedCard)) : Except PyError (List Posting) :=
  match r with
  | .timeout => .error .requestTimeout
  | .netError => .error .connectionError
  | .response status cards =>
    if status ≠ 200 then .ok []
    else .ok (cards.filterMap (indeedRecord g (indeedUrl g location) location))

/-- One Wellfound job card: the optional `a[data-test="job-link"]` anchor, the
optional company-name element, and the card's full text. -/
structure WellfoundCard where
  jobLink : Option Anchor
  companyEl : Option (List Char)
  cardText : List Char
  deriving DecidableEq, Repr

def wellfoundUrl (g : Globals) (location : List Char) : List Char :=
  "https://wellfound.com/jobs".toList ++
    '?' :: urlencode [("search[query]".toList, g.KEYWORDS),
      ("search[locations][]".toList, location)]

/-- Processing of one Wellfound card.  When the job-link anchor is missing,
`title` is `None` (Python's `x and y`), so `title + ' ' + summary` raises
`TypeError`; when the anchor has no `href`, `link_el['href']` raises
`KeyError`.  Only the company element is defaulted. -/
def wellfoundRecord (g : Globals) (location : List Char)
    (job : WellfoundCard) : Except PyError (Option Posting) :=
  let company := job.companyEl.getD "N/A".toList
  match job.jobLink with
  | none => .error .typeError
  | some a =>
    match a.href with
    | none => .error .keyError
    | some h =>
      let link := "https://wellfound.com".toList ++ h
      let summary := job.cardText
      let title := a.text
      if matches_experience g (title ++ [' '] ++ summary) then
        .ok (some ⟨title, company, location, "N/A".toList, link,
          "Wellfound".toList, summary⟩)
      else
        .ok none

/-- The Wellfound card loop: a raised exception aborts the whole adapter,
discarding earlier records. -/
def wfLoop (g : Globals) (location : List Char) :
    List WellfoundCard → Except PyError (List Posting)
  | [] => .ok []
  | j :: rest => do
    let o ← wellfoundRecord g location j
    let tail ← wfLoop g location rest
    pure (o.toList ++ tail)

def parse_wellfound (g : Globals) (location : List Char)
    (r : FetchResult (List WellfoundCard)) : Except PyError (List Posting) :=
  match r with
  | .timeout => .error .requestTimeout
  | .netError => .error .connectionError
  | .response status cards =>
    if status ≠ 200 then .ok []
    else wfLoop g location (cards.take 30)

/-- `parse_glassdoor`: deliberate no-op, prints an advisory and returns `[]`. -/
def parse_glassdoor (_location : List Char) : List Posting := []

/-- `parse_linkedin`: deliberate no-op, prints an advisory and returns `[]`. -/
def parse_linkedin (_location : List Char) : List Posting := []

/-! The Reporter (`save_results`).  File writes and console prints are
modelled as the returned `ReportOutput` value. -/

def csvHeader : List (List Char) :=
  ["title", "company", "salary", "link", "source", "location"].map String.toList

/-- Minimal CSV quoting: quote a field iff it contains a comma, quote, CR or
LF, doubling interior quotes. -/
def csvField (s : List Char) : List Char :=
  if s.any fun c => c = ',' || c = '"' || c = '\n' || c = '\r' then
    ('"' :: s.flatMap fun c => if c = '"' then ['"', '"'] else [c]) ++ ['"']
  else s

def renderCsv (rows : List (List (List Char))) : List Char :=
  joinSep ['\n']
    (joinSep [','] (csvHeader.map csvField) ::
      rows.map fun r => joinSep [','] (r.map csvField)) ++ ['\n']

def htmlEscape (s : List Char) : List Char :=
  s.flatMap fun c =>
    if c = '&' then "&amp;".toList
    else if c = '<' then "&lt;".toList
    else if c = '>' then "&gt;".toList
    else [c]

def htmlRow (tag : List Char) (cells : List (List Char)) : List Char :=
  "<tr>".toList ++
    (cells.flatMap fun c =>
      '<' :: tag ++ ['>'] ++ htmlEscape c ++ ('<' :: '/' :: tag) ++ ['>']) ++
    "</tr>".toList

def renderHtml (rows : List (List (List Char))) : List Char :=
  "<table>".toList ++ htmlRow "th".toList csvHeader ++
    rows.flatMap (htmlRow "td".toList) ++ "</table>".toList

/-- The observable effects of `save_results`: the files written (name and
content) and the console messages printed. -/
structure ReportOutput where
  files : List (List Char × List Char)
  console : List (List Char)
  deriving DecidableEq, Repr

/-- `save_results(results)`: on an empty list, print and write nothing;
otherwise project to the six report columns and write `jobs.csv` and
`jobs.html`. -/
def save_results (results : List Posting) : ReportOutput :=
  if results.isEmpty then
    ⟨[], ["No results to save.".toList]⟩
  else
    let rows := results.map fun e =>
      [e.title, e.company, e.salary, e.link, e.source, e.location]
    ⟨[("jobs.csv".toList, renderCsv rows), ("jobs.html".toList, renderHtml rows)],
      ["Saved ".toList ++ (Nat.repr results.length).toList ++
        " jobs to jobs.csv and jobs.html".toList]⟩

/-! The Notifier (`send_email_with_attachments`).  The process environment is
an association list, the filesystem another one (for attachment reads); the
SMTP interaction is modelled as the returned `EmailOutcome`. -/

abbrev Env := List (List Char × List Char)

def getenv (env : Env) (k : List Char) : Option (List Char) :=
  (env.find? fun p => p.1 == k).map Prod.snd

/-- Python truthiness of an optional string: `None` and `''` are falsy. -/
def truthy : Option (List Char) → Bool
  | none => false
  | some s => !s.isEmpty

def pyStrip (s : List Char) : List Char :=
  ((s.dropWhile Char.isWhitespace).reverse.dropWhile Char.isWhitespace).reverse

/-- After the first digit, `int()` accepts digits with single interior
underscores (an underscore must be followed by a digit). -/
def digitRun : List Char → Bool
  | [] => true
  | ['_'] => false
  | '_' :: d :: rest => d.isDigit && digitRun rest
  | d :: rest => d.isDigit && digitRun rest

def digitsOk : List Char → Bool
  | [] => false
  | d :: rest => d.isDigit && digitRun rest

def digitsVal (ds : List Char) : Nat :=
  ds.foldl (fun acc c => if c = '_' then acc else acc * 10 + (c.toNat - 48)) 0

/-- Python's `int(str)`: strip whitespace, optional sign, then a digit run;
anything else raises `ValueError`. -/
def pyInt (s : List Char) : Except PyError Int :=
  match pyStrip s with
  | '-' :: ds =>
    if digitsOk ds then .ok (-(digitsVal ds : Int)) else .error .valueError
  | '+' :: ds =>
    if digitsOk ds then .ok (digitsVal ds : Int) else .error .valueError
  | ds =>
    if digitsOk ds then .ok (digitsVal ds : Int) else .error .valueError

/-- What the Notifier did: skipped (unconfigured), or opened an SMTP session
to `host:port` and sent the message to `to`. -/
inductive EmailOutcome where
  | skipped
  | sent (host : List Char) (port : Int) (user recipients : List Char)
      (attachmentCount : Nat)
  deriving DecidableEq, Repr

/-- `open(path, 'rb')` for each attachment: a missing file raises. -/
def readAttachments (fs : List (List Char × List Char)) :
    List (List Char) → Except PyError Nat
  | [] => .ok 0
  | p :: rest =>
    match fs.find? fun q => q.1 == p with
    | none => .error .fileNotFoundError
    | some _ => (readAttachments fs rest).map (· + 1)

/-- `send_email_with_attachments`: note that `EMAIL_SMTP_PORT` is converted
with `int()` *before* the presence check of host/user/pass/to. -/
def send_email_with_attachments (env : Env)
    (fs : List (List Char × List Char)) (_subject _body : List Char)
    (attachments : Option (List (List Char))) :
    Except PyError EmailOutcome :=
  let SMTP_HOST := getenv env "EMAIL_SMTP_HOST".toList
  let portE : Except PyError Int :=
    match getenv env "EMAIL_SMTP_PORT".toList with
    | none => .ok 587
    | some s => pyInt s
  match portE with
  | .error err => .error err
  | .ok SMTP_PORT =>
    let USER := getenv env "EMAIL_USER".toList
    let PASS := getenv env "EMAIL_PASS".toList
    let TO := getenv env "EMAIL_TO".toList
    if !(truthy SMTP_HOST && truthy USER && truthy PASS && truthy TO) then
      .ok .skipped
    else
      match attachments with
      | none =>
        .ok (.sent (SMTP_HOST.getD []) SMTP_PORT (USER.getD []) (TO.getD []) 0)
      | some paths =>
        match readAttachments fs paths with
        | .error err => .error err
        | .ok n =>
          .ok (.sent (SMTP_HOST.getD []) SMTP_PORT (USER.getD []) (TO.getD []) n)

/-! Concrete sample data for instantiating the theorems. -/

def pJunior : Posting :=
  ⟨"Junior Web Developer".toList, "Acme".toList, "India".toList, "N/A".toList,
    "https://x/a".toList, "Indeed".toList, []⟩

def pSenior : Posting :=
  ⟨"Senior Architect".toList, "Acme".toList, "India".toList, "N/A".toList,
    "https://x/b".toList, "Indeed".toList, []⟩

def pSenDup : Posting :=
  ⟨"Senior Architect".toList, "Acme".toList, "India".toList, "N/A".toList,
    "https://x/dup".toList, "Indeed".toList, []⟩

def pJunDup : Posting :=
  ⟨"Junior Web Developer".toList, "Acme".toList, "India".toList, "N/A".toList,
    "https://x/dup".toList, "Indeed".toList, []⟩

/-- An Indeed card with every selected element missing. -/
def cardAllMiss : IndeedCard := ⟨none, none, none, none, none⟩

/-- A Wellfound card whose job-link anchor is missing. -/
def jobNoAnchor : WellfoundCard :=
  ⟨none, some "Acme".toList, "Junior Web Developer at Acme".toList⟩

/-- A Wellfound card whose job-link anchor has no `href` attribute. -/
def jobNoHref : WellfoundCard :=
  ⟨some ⟨"Junior Web Developer".toList, none⟩, some "Acme".toList,
    "Junior Web Developer at Acme".toList⟩

/-- A Wellfound card with no company element. -/
def jobNoCompany : WellfoundCard :=
  ⟨some ⟨"Junior Web Developer".toList, some "/jobs/1".toList⟩, none,
    "Junior Web Developer".toList⟩

/-- The posting `parse_wellfound` builds from `jobNoCompany`. -/
def qNoCompany : Posting :=
  ⟨"Junior Web Developer".toList, "N/A".toList, "India".toList, "N/A".toList,
    "https://wellfound.com/jobs/1".toList, "Wellfound".toList,
    "Junior Web Developer".toList⟩

/-- An environment where `EMAIL_SMTP_PORT` holds a non-integer string and
every other delivery variable (in particular `EMAIL_TO`) is unset. -/
def envBadPort : Env := [("EMAIL_SMTP_PORT".toList, "not a number".toList)]

/-- An environment with host, user and password set but `EMAIL_TO` unset. -/
def envNoRecipient : Env :=
  [("EMAIL_SMTP_HOST".toList, "smtp.example.com".toList),
    ("EMAIL_USER".toList, "user@example.com".toList),
    ("EMAIL_PASS".toList, "hunter2".toList)]

/-- An environment where `EMAIL_SMTP_PORT` is the non-integer string `abc`
and `EMAIL_TO` is unset. -/
def envAbcPort : Env := [("EMAIL_SMTP_PORT".toList, "abc".toList)]

/-! # Lemmas -/

theorem isPrefixB_iff (n h : List Char) :
    isPrefixB n h = true ↔ ∃ rest, h = n ++ rest := by
  induction n generalizing h with
  | nil => simp [isPrefixB]
  | cons a as ih =>
    cases h with
    | nil => simp [isPrefixB]
    | cons b bs =>
      simp only [isPrefixB, Bool.and_eq_true, beq_iff_eq, ih, List.cons_append,
        List.cons.injEq]
      constructor
      · rintro ⟨rfl, rest, rfl⟩; exact ⟨rest, rfl, rfl⟩
      · rintro ⟨rest, rfl, rfl⟩; exact ⟨rfl, rest, rfl⟩

theorem containsSub_iff (n h : List Char) :
    containsSub n h = true ↔ ∃ pre post, h = pre ++ n ++ post := by
  induction h with
  | nil =>
    simp only [containsSub, List.isEmpty_iff]
    constructor
    · rintro rfl; exact ⟨[], [], rfl⟩
    · rintro ⟨pre, post, hEq⟩
      rcases List.append_eq_nil.mp (List.append_eq_nil.mp hEq.symm).1 with ⟨-, h2⟩
      exact h2
  | cons c rest ih =>
    simp only [containsSub, Bool.or_eq_true, isPrefixB_iff, ih]
    constructor
    · rintro (⟨r, hEq⟩ | ⟨pre, post, hEq⟩)
      · exact ⟨[], r, by simpa using hEq⟩
      · exact ⟨c :: pre, post, by simp [hEq]⟩
    · rintro ⟨pre, post, hEq⟩
      cases pre with
      | nil => exact Or.inl ⟨post, by simpa using hEq⟩
      | cons p ps =>
        rw [List.cons_append, List.cons_append, List.cons.injEq] at hEq
        exact Or.inr ⟨ps, post, hEq.2⟩

/-! Lowercasing facts: `Char.toLower` is idempotent, so re-lowercasing the
already-lowercased text built inside `consolidate_and_filter` changes
nothing. -/

theorem toNat_ofNat_of_valid {n : Nat} (h : n.isValidChar) :
    (Char.ofNat n).toNat = n := by
  rw [Char.ofNat, dif_pos h]; rfl

theorem toLower_toLower (c : Char) :
    Char.toLower (Char.toLower c) = Char.toLower c := by
  simp only [Char.toLower]
  by_cases h : c.toNat ≥ 65 ∧ c.toNat ≤ 90
  · rw [if_pos h]
    have hv : Nat.isValidChar (c.toNat + 32) := Or.inl (by omega)
    rw [toNat_ofNat_of_valid hv, if_neg (by omega)]
  · rw [if_neg h, if_neg h]

theorem map_toLower_idem (l : List Char) :
    (l.map Char.toLower).map Char.toLower = l.map Char.toLower := by
  rw [List.map_map]
  exact List.map_congr_left fun a _ => toLower_toLower a

theorem matches_experience_map_toLower (g : Globals) (t : List Char) :
    matches_experience g (t.map Char.toLower) = matches_experience g t := by
  unfold matches_experience
  rw [map_toLower_idem]

/-! Structural lemmas about the consolidation loop. -/

theorem find?_cons_of_false {α : Type} {p : α → Bool} {a : α} (l : List α)
    (h : p a = false) : (a :: l).find? p = l.find? p := by
  simp [List.find?, h]

theorem find?_cons_of_true {α : Type} {p : α → Bool} {a : α} (l : List α)
    (h : p a = true) : (a :: l).find? p = some a := by
  simp [List.find?, h]

theorem consolidateGo_sublist (g : Globals) (l : List Posting) :
    ∀ seen, List.Sublist (consolidateGo g seen l) l := by
  induction l with
  | nil => intro seen; simp [consolidateGo]
  | cons e rest ih =>
    intro seen
    rw [consolidateGo]
    by_cases h : e.link ∈ seen
    · rw [if_pos h]
      exact (ih seen).cons e
    · rw [if_neg h]
      by_cases hm :
          matches_experience g ((e.title ++ [' '] ++ e.summary).map Char.toLower) = true
      · rw [if_pos hm]
        exact (ih _).cons₂ e
      · rw [if_neg hm]
        exact (ih _).cons e

theorem consolidateGo_link_notin_seen (g : Globals) (l : List Posting) :
    ∀ seen e, e ∈ consolidateGo g seen l → e.link ∉ seen := by
  induction l with
  | nil => intro seen e h; simp [consolidateGo] at h
  | cons a rest ih =>
    intro seen e h
    rw [consolidateGo] at h
    by_cases ha : a.link ∈ seen
    · rw [if_pos ha] at h
      exact ih seen e h
    · rw [if_neg ha] at h
      by_cases hm :
          matches_experience g ((a.title ++ [' '] ++ a.summary).map Char.toLower) = true
      · rw [if_pos hm] at h
        rcases List.mem_cons.mp h with rfl | h'
        · exact ha
        · intro hseen
          exact ih _ e h' (List.mem_cons_of_mem _ hseen)
      · rw [if_neg hm] at h
        intro hseen
        exact ih _ e h (List.mem_cons_of_mem _ hseen)

theorem consolidateGo_pairwise (g : Globals) (l : List Posting) :
    ∀ seen, (consolidateGo g seen l).Pairwise (fun a b => a.link ≠ b.link) := by
  induction l with
  | nil => intro seen; simp [consolidateGo]
  | cons a rest ih =>
    intro seen
    rw [consolidateGo]
    by_cases ha : a.link ∈ seen
    · rw [if_pos ha]; exact ih seen
    · rw [if_neg ha]
      by_cases hm :
          matches_experience g ((a.title ++ [' '] ++ a.summary).map Char.toLower) = true
      · rw [if_pos hm]
        refine List.Pairwise.cons (fun b hb hEq => ?_) (ih _)
        have hb' := consolidateGo_link_notin_seen g rest _ b hb
        exact hb' (by rw [← hEq]; exact List.mem_cons_self _ _)
      · rw [if_neg hm]; exact ih _

theorem consolidateGo_find? (g : Globals) (l : List Posting) :
    ∀ seen e, e ∈ consolidateGo g seen l →
      l.find? (fun x => x.link == e.link) = some e := by
  induction l with
  | nil => intro seen e h; simp [consolidateGo] at h
  | cons a rest ih =>
    intro seen e h
    rw [consolidateGo] at h
    by_cases ha : a.link ∈ seen
    · rw [if_pos ha] at h
      have hne : ((fun x => x.link == e.link) a) = false := by
        simp only [beq_eq_false_iff_ne, ne_eq]
        intro hEq
        exact consolidateGo_link_notin_seen g rest seen e h (hEq ▸ ha)
      rw [find?_cons_of_false rest hne]
      exact ih seen e h
    · rw [if_neg ha] at h
      by_cases hm :
          matches_experience g ((a.title ++ [' '] ++ a.summary).map Char.toLower) = true
      · rw [if_pos hm] at h
        rcases List.mem_cons.mp h with rfl | h'
        · rw [find?_cons_of_true rest (by simp)]
        · have hne : ((fun x => x.link == e.link) a) = false := by
            simp only [beq_eq_false_iff_ne, ne_eq]
            intro hEq
            exact consolidateGo_link_notin_seen g rest _ e h'
              (by rw [← hEq]; exact List.mem_cons_self _ _)
          rw [find?_cons_of_false rest hne]
          exact ih _ e h'
      · rw [if_neg hm] at h
        have hne : ((fun x => x.link == e.link) a) = false := by
          simp only [beq_eq_false_iff_ne, ne_eq]
          intro hEq
          exact consolidateGo_link_notin_seen g rest _ e h
            (by rw [← hEq]; exact List.mem_cons_self _ _)
        rw [find?_cons_of_false rest hne]
        exact ih _ e h

theorem consolidateGo_passes (g : Globals) (l : List Posting) :
    ∀ seen e, e ∈ consolidateGo g seen l →
      matches_experience g ((e.title ++ [' '] ++ e.summary).map Char.toLower) = true := by
  induction l with
  | nil => intro seen e h; simp [consolidateGo] at h
  | cons a rest ih =>
    intro seen e h
    rw [consolidateGo] at h
    by_cases ha : a.link ∈ seen
    · rw [if_pos ha] at h
      exact ih seen e h
    · rw [if_neg ha] at h
      by_cases hm :
          matches_experience g ((a.title ++ [' '] ++ a.summary).map Char.toLower) = true
      · rw [if_pos hm] at h
        rcases List.mem_cons.mp h with rfl | h'
        · exact hm
        · exact ih _ e h'
      · rw [if_neg hm] at h
        exact ih _ e h

theorem consolidateGo_eq_self (g : Globals) (l : List Posting) :
    ∀ seen, (∀ e ∈ l, e.link ∉ seen) →
      l.Pairwise (fun a b => a.link ≠ b.link) →
      (∀ e ∈ l,
        matches_experience g ((e.title ++ [' '] ++ e.summary).map Char.toLower) = true) →
      consolidateGo g seen l = l := by
  induction l with
  | nil => intro seen _ _ _; simp [consolidateGo]
  | cons a rest ih =>
    intro seen hseen hpw hpass
    rw [consolidateGo, if_neg (hseen a (List.mem_cons_self _ _)),
      if_pos (hpass a (List.mem_cons_self _ _))]
    congr 1
    refine ih _ (fun e he hmem => ?_) (List.pairwise_cons.mp hpw).2
      (fun e he => hpass e (List.mem_cons_of_mem _ he))
    rcases List.mem_cons.mp hmem with hEq | hmem'
    · exact (List.pairwise_cons.mp hpw).1 e he hEq.symm
    · exact hseen e (List.mem_cons_of_mem _ he) hmem'

theorem containsSub_map_toLower_iff (k text : List Char) :
    containsSub k (text.map Char.toLower) = true ↔ containsCI k text := by
  rw [containsSub_iff]
  constructor
  · rintro ⟨pre, post, hEq⟩
    rcases List.map_eq_append_iff.mp hEq with ⟨t₁, t₂, rfl, hm₁, hm₂⟩
    rcases List.map_eq_append_iff.mp hm₁ with ⟨t₃, t₄, rfl, hm₃, hm₄⟩
    exact ⟨t₃, t₄, t₂, rfl, hm₄⟩
  · rintro ⟨pre, mid, post, rfl, hmid⟩
    exact ⟨pre.map Char.toLower, post.map Char.toLower, by
      simp [List.map_append, hmid]⟩

/-! Congruence in the configuration: every pipeline function reads only the
`KEYWORDS` and `EXPERIENCE_KEYWORDS` fields of the configuration. -/

theorem matches_experience_congr {g₁ g₂ : Globals}
    (hE : g₁.EXPERIENCE_KEYWORDS = g₂.EXPERIENCE_KEYWORDS) (t : List Char) :
    matches_experience g₁ t = matches_experience g₂ t := by
  unfold matches_experience
  rw [hE]

theorem consolidateGo_congr {g₁ g₂ : Globals}
    (hE : g₁.EXPERIENCE_KEYWORDS = g₂.EXPERIENCE_KEYWORDS) (l : List Posting) :
    ∀ seen, consolidateGo g₁ seen l = consolidateGo g₂ seen l := by
  induction l with
  | nil => intro seen; rfl
  | cons a rest ih =>
    intro seen
    simp only [consolidateGo, matches_experience_congr hE, ih]

theorem indeedUrl_congr {g₁ g₂ : Globals} (hK : g₁.KEYWORDS = g₂.KEYWORDS)
    (location : List Char) : indeedUrl g₁ location = indeedUrl g₂ location := by
  unfold indeedUrl
  rw [hK]

theorem indeedRecord_congr {g₁ g₂ : Globals}
    (hE : g₁.EXPERIENCE_KEYWORDS = g₂.EXPERIENCE_KEYWORDS)
    (url location : List Char) (card : IndeedCard) :
    indeedRecord g₁ url location card = indeedRecord g₂ url location card := by
  simp only [indeedRecord, matches_experience_congr hE]

theorem parse_indeed_congr {g₁ g₂ : Globals} (hK : g₁.KEYWORDS = g₂.KEYWORDS)
    (hE : g₁.EXPERIENCE_KEYWORDS = g₂.EXPERIENCE_KEYWORDS)
    (location : List Char) (r : FetchResult (List IndeedCard)) :
    parse_indeed g₁ location r = parse_indeed g₂ location r := by
  cases r with
  | timeout => rfl
  | netError => rfl
  | response status cards =>
    have hrec :
        indeedRecord g₁ (indeedUrl g₁ location) location =
          indeedRecord g₂ (indeedUrl g₂ location) location := by
      rw [indeedUrl_congr hK]
      exact funext (indeedRecord_congr hE _ location)
    simp only [parse_indeed, hrec]

theorem wellfoundRecord_congr {g₁ g₂ : Globals}
    (hE : g₁.EXPERIENCE_KEYWORDS = g₂.EXPERIENCE_KEYWORDS)
    (location : List Char) (job : WellfoundCard) :
    wellfoundRecord g₁ location job = wellfoundRecord g₂ location job := by
  obtain ⟨jl, ce, ct⟩ := job
  cases jl with
  | none => rfl
  | some a =>
    obtain ⟨t, hr⟩ := a
    cases hr with
    | none => rfl
    | some h => simp only [wellfoundRecord, matches_experience_congr hE]

theorem wfLoop_congr {g₁ g₂ : Globals}
    (hE : g₁.EXPERIENCE_KEYWORDS = g₂.EXPERIENCE_KEYWORDS)
    (location : List Char) (cards : List WellfoundCard) :
    wfLoop g₁ location cards = wfLoop g₂ location cards := by
  induction cards with
  | nil => rfl
  | cons j rest ih =>
    simp only [wfLoop, wellfoundRecord_congr hE, ih]

theorem parse_wellfound_congr {g₁ g₂ : Globals}
    (hE : g₁.EXPERIENCE_KEYWORDS = g₂.EXPERIENCE_KEYWORDS)
    (location : List Char) (r : FetchResult (List WellfoundCard)) :
    parse_wellfound g₁ location r = parse_wellfound g₂ location r := by
  cases r with
  | timeout => rfl
  | netError => rfl
  | response status cards => simp only [parse_wellfound, wfLoop_congr hE]

/-! # Claim theorems -/

/-- C1: the output of `consolidate_and_filter` has pairwise distinct links; it
is a sublist of the input (surviving records keep their input order); the
record kept for a link is the first input record with that link; and every
surviving record satisfies `matches_experience` on its title + `' '` +
summary. -/
theorem consolidate_output_dedup_stable_filtered (g : Globals)
    (entries : List Posting) :
    (consolidate_and_filter g entries).Pairwise (fun a b => a.link ≠ b.link) ∧
    List.Sublist (consolidate_and_filter g entries) entries ∧
    (∀ e ∈ consolidate_and_filter g entries,
      entries.find? (fun x => x.link == e.link) = some e) ∧
    (∀ e ∈ consolidate_and_filter g entries,
      matches_experience g (e.title ++ [' '] ++ e.summary) = true) := by
  refine ⟨consolidateGo_pairwise g entries [], consolidateGo_sublist g entries [],
    fun e he => consolidateGo_find? g entries [] e he, fun e he => ?_⟩
  have h := consolidateGo_passes g entries [] e he
  rwa [matches_experience_map_toLower] at h

/-- Witness for C1 at a concrete two-record input. -/
theorem consolidate_output_dedup_stable_filtered_witness :
    pJunior ∈ consolidate_and_filter defaultGlobals [pJunior, pSenior] ∧
    [pJunior, pSenior].find? (fun x => x.link == pJunior.link) = some pJunior ∧
    matches_experience defaultGlobals
      (pJunior.title ++ [' '] ++ pJunior.summary) = true := by
  have hmem : pJunior ∈ consolidate_and_filter defaultGlobals [pJunior, pSenior] := by
    decide
  exact ⟨hmem,
    (consolidate_output_dedup_stable_filtered defaultGlobals
      [pJunior, pSenior]).2.2.1 pJunior hmem,
    (consolidate_output_dedup_stable_filtered defaultGlobals
      [pJunior, pSenior]).2.2.2 pJunior hmem⟩

/-- C2: `matches_experience` (with the configured keyword list junior /
entry level / entry-level / graduate / intern) returns true exactly when some
keyword occurs in the text case-insensitively, at any position. -/
theorem matches_experience_iff_keyword (text : List Char) :
    matches_experience defaultGlobals text = true ↔
      ∃ k ∈ defaultGlobals.EXPERIENCE_KEYWORDS, containsCI k text := by
  unfold matches_experience
  rw [List.any_eq_true]
  constructor
  · rintro ⟨k, hk, hc⟩
    exact ⟨k, hk, (containsSub_map_toLower_iff k text).mp hc⟩
  · rintro ⟨k, hk, hc⟩
    exact ⟨k, hk, (containsSub_map_toLower_iff k text).mpr hc⟩

/-- C5: `consolidate_and_filter` is idempotent — applied to its own output it
returns that output unchanged (hence in particular the same links). -/
theorem consolidate_idempotent (g : Globals) (entries : List Posting) :
    consolidate_and_filter g (consolidate_and_filter g entries) =
      consolidate_and_filter g entries := by
  unfold consolidate_and_filter
  exact consolidateGo_eq_self g _ []
    (fun e _ h => List.not_mem_nil e.link h)
    (consolidateGo_pairwise g entries [])
    (fun e he => consolidateGo_passes g entries [] e he)

/-- C6: on an empty posting list, `save_results` writes no files, prints the
zero-records message, and returns normally. -/
theorem save_results_empty :
    save_results [] =
      { files := [], console := ["No results to save.".toList] } := rfl

/-- C9: deduplication happens before the experience re-filter — when the
first input record with link `L` fails the filter, no record with link `L`
survives, even if a later input record with link `L` passes it. -/
theorem dedup_precedes_refilter (g : Globals) (entries : List Posting)
    (L : List Char) (e₁ e₂ : Posting)
    (hfirst : entries.find? (fun x => x.link == L) = some e₁)
    (hfail : matches_experience g (e₁.title ++ [' '] ++ e₁.summary) = false)
    (_hmem : e₂ ∈ entries) (_hlink : e₂.link = L)
    (_hpass : matches_experience g (e₂.title ++ [' '] ++ e₂.summary) = true) :
    (consolidate_and_filter g entries).all (fun e => !(e.link == L)) = true := by
  rw [List.all_eq_true]
  intro e he
  simp only [Bool.not_eq_true', beq_eq_false_iff_ne, ne_eq]
  intro hEq
  have hfind := consolidateGo_find? g entries [] e he
  rw [hEq, hfirst] at hfind
  have heq1 : e₁ = e := Option.some.inj hfind
  have hp := consolidateGo_passes g entries [] e he
  rw [matches_experience_map_toLower, ← heq1, hfail] at hp
  exact Bool.false_ne_true hp

/-- Witness for C9: two records share a link, the first fails the filter and
the second passes, and the link is absent from the output. -/
theorem dedup_precedes_refilter_witness :
    [pSenDup, pJunDup].find? (fun x => x.link == "https://x/dup".toList) =
      some pSenDup ∧
    matches_experience defaultGlobals
      (pSenDup.title ++ [' '] ++ pSenDup.summary) = false ∧
    pJunDup ∈ [pSenDup, pJunDup] ∧
    pJunDup.link = "https://x/dup".toList ∧
    matches_experience defaultGlobals
      (pJunDup.title ++ [' '] ++ pJunDup.summary) = true ∧
    (consolidate_and_filter defaultGlobals [pSenDup, pJunDup]).all
      (fun e => !(e.link == "https://x/dup".toList)) = true :=
  ⟨by decide, by decide, by decide, by decide, by decide,
    dedup_precedes_refilter defaultGlobals [pSenDup, pJunDup]
      "https://x/dup".toList pSenDup pJunDup (by decide) (by decide)
      (by decide) (by decide) (by decide)⟩

/-- C8: `matches_work_mode` is inert — the records produced by the two active
adapters and the output of `consolidate_and_filter` are identical for any two
contents of the `WORK_MODES` vocabulary (`save_results` reads no
configuration at all). -/
theorem work_mode_vocabulary_inert (g : Globals) (wm₁ wm₂ : List (List Char))
    (location : List Char) (ri : FetchResult (List IndeedCard))
    (rwf : FetchResult (List WellfoundCard)) (entries : List Posting) :
    parse_indeed { g with WORK_MODES := wm₁ } location ri =
      parse_indeed { g with WORK_MODES := wm₂ } location ri ∧
    parse_wellfound { g with WORK_MODES := wm₁ } location rwf =
      parse_wellfound { g with WORK_MODES := wm₂ } location rwf ∧
    consolidate_and_filter { g with WORK_MODES := wm₁ } entries =
      consolidate_and_filter { g with WORK_MODES := wm₂ } entries :=
  ⟨@parse_indeed_congr { g with WORK_MODES := wm₁ } { g with WORK_MODES := wm₂ }
      rfl rfl location ri,
    @parse_wellfound_congr { g with WORK_MODES := wm₁ } { g with WORK_MODES := wm₂ }
      rfl location rwf,
    @consolidateGo_congr { g with WORK_MODES := wm₁ } { g with WORK_MODES := wm₂ }
      rfl entries []⟩

/-- C3 counterexample: a request timeout is an uncaught exception — both
active adapters propagate it as an error instead of logging and returning an
empty list, so the failure aborts the caller. -/
theorem adapter_timeout_raises :
    parse_indeed defaultGlobals "India".toList FetchResult.timeout =
      Except.error PyError.requestTimeout ∧
    parse_wellfound defaultGlobals "India".toList FetchResult.timeout =
      Except.error PyError.requestTimeout := ⟨rfl, rfl⟩

/-- C3 amended: only a non-success HTTP status is swallowed (logged, adapter
returns the empty list); a request timeout or network error raises and
propagates to the caller. -/
theorem adapter_fetch_failure (g : Globals) (location : List Char)
    (status : Nat) (bi : List IndeedCard) (bw : List WellfoundCard)
    (h : status ≠ 200) :
    parse_indeed g location (.response status bi) = .ok [] ∧
    parse_wellfound g location (.response status bw) = .ok [] ∧
    parse_indeed g location .timeout = .error .requestTimeout ∧
    parse_indeed g location .netError = .error .connectionError ∧
    parse_wellfound g location .timeout = .error .requestTimeout ∧
    parse_wellfound g location .netError = .error .connectionError := by
  refine ⟨?_, ?_, rfl, rfl, rfl, rfl⟩
  · simp only [parse_indeed, if_pos h]
  · simp only [parse_wellfound, if_pos h]

/-- Witness for C3 (amended) at status 404. -/
theorem adapter_fetch_failure_witness :
    (404 : Nat) ≠ 200 ∧
    parse_indeed defaultGlobals "India".toList (.response 404 []) = .ok [] ∧
    parse_wellfound defaultGlobals "India".toList (.response 404 []) = .ok [] :=
  ⟨by decide,
    (adapter_fetch_failure defaultGlobals "India".toList 404 [] [] (by decide)).1,
    (adapter_fetch_failure defaultGlobals "India".toList 404 [] [] (by decide)).2.1⟩

/-- C4 counterexample: on a successful Wellfound response, a card whose
job-link anchor is missing leaves `title` as `None`, and
`title + ' ' + summary` raises `TypeError` — the missing element is not
defaulted and the error is fatal to the adapter. -/
theorem wellfound_missing_anchor_fatal :
    parse_wellfound defaultGlobals "India".toList
      (FetchResult.response 200 [jobNoAnchor]) =
      Except.error PyError.typeError := rfl

/-- C4 amended: in `parse_indeed` a successful response is never fatal and
every missing element is defaulted — title/company/salary to `'N/A'`,
location to the input location, link to the search URL, summary to the empty
text; in `parse_wellfound` a missing company element is defaulted to `'N/A'`,
but a card without the job-link anchor raises `TypeError` and a card whose
anchor lacks `href` raises `KeyError`. -/
theorem adapter_missing_markup (g : Globals) (url location : List Char)
    (status : Nat) (cards : List IndeedCard) (card : IndeedCard)
    (job : WellfoundCard) :
    (∃ out, parse_indeed g location (.response status cards) = .ok out) ∧
    (indeedFields url location card).salary = "N/A".toList ∧
    (card.titleEl = none → (indeedFields url location card).title = "N/A".toList) ∧
    (card.companyEl = none →
      (indeedFields url location card).company = "N/A".toList) ∧
    (card.locEl = none → (indeedFields url location card).location = location) ∧
    (card.linkEl = none → (indeedFields url location card).link = url) ∧
    (card.summaryEl = none → (indeedFields url location card).summary = []) ∧
    (job.companyEl = none → ∀ q, wellfoundRecord g location job = .ok (some q) →
      q.company = "N/A".toList) ∧
    (job.jobLink = none → wellfoundRecord g location job = .error .typeError) ∧
    (∀ a, job.jobLink = some a → a.href = none →
      wellfoundRecord g location job = .error .keyError) := by
  refine ⟨?_, ?_, ?_, ?_, ?_, ?_, ?_, ?_, ?_, ?_⟩
  · by_cases hs : status ≠ 200
    · exact ⟨[], by simp only [parse_indeed, if_pos hs]⟩
    · refine ⟨cards.filterMap (indeedRecord g (indeedUrl g location) location), ?_⟩
      simp only [parse_indeed, if_neg hs]
  · simp [indeedFields]
  · intro h; simp [indeedFields, h]
  · intro h; simp [indeedFields, h]
  · intro h; simp [indeedFields, h]
  · intro h; simp [indeedFields, h]
  · intro h; simp [indeedFields, h]
  · intro hce q hq
    rcases hj : job.jobLink with - | a
    · simp [wellfoundRecord, hj] at hq
    · rcases hh : a.href with - | hv
      · simp [wellfoundRecord, hj, hh] at hq
      · simp only [wellfoundRecord, hj, hh] at hq
        split at hq
        · simp only [Except.ok.injEq, Option.some.injEq] at hq
          subst hq
          simp [hce]
        · simp at hq
  · intro hj; simp [wellfoundRecord, hj]
  · intro a hj hh; simp [wellfoundRecord, hj, hh]

/-- Witness for C4 (amended), applied to an all-missing Indeed card and to
Wellfound cards missing the company element, the anchor, and the `href`. -/
theorem adapter_missing_markup_witness :
    (∃ out, parse_indeed defaultGlobals "India".toList
      (FetchResult.response 200 []) = Except.ok out) ∧
    (indeedFields "https://search.example".toList "India".toList
      cardAllMiss).salary = "N/A".toList ∧
    (indeedFields "https://search.example".toList "India".toList
      cardAllMiss).title = "N/A".toList ∧
    (indeedFields "https://search.example".toList "India".toList
      cardAllMiss).company = "N/A".toList ∧
    (indeedFields "https://search.example".toList "India".toList
      cardAllMiss).location = "India".toList ∧
    (indeedFields "https://search.example".toList "India".toList
      cardAllMiss).link = "https://search.example".toList ∧
    (indeedFields "https://search.example".toList "India".toList
      cardAllMiss).summary = [] ∧
    qNoCompany.company = "N/A".toList ∧
    wellfoundRecord defaultGlobals "India".toList jobNoAnchor =
      Except.error PyError.typeError ∧
    wellfoundRecord defaultGlobals "India".toList jobNoHref =
      Except.error PyError.keyError := by
  have T := adapter_missing_markup defaultGlobals "https://search.example".toList
    "India".toList 200 [] cardAllMiss jobNoAnchor
  have T2 := adapter_missing_markup defaultGlobals "https://search.example".toList
    "India".toList 200 [] cardAllMiss jobNoHref
  have T3 := adapter_missing_markup defaultGlobals "https://search.example".toList
    "India".toList 200 [] cardAllMiss jobNoCompany
  exact ⟨T.1, T.2.1, T.2.2.1 rfl, T.2.2.2.1 rfl, T.2.2.2.2.1 rfl,
    T.2.2.2.2.2.1 rfl, T.2.2.2.2.2.2.1 rfl,
    T3.2.2.2.2.2.2.2.1 rfl qNoCompany rfl,
    T.2.2.2.2.2.2.2.2.1 rfl,
    T2.2.2.2.2.2.2.2.2.2 ⟨"Junior Web Developer".toList, none⟩ rfl rfl⟩

/-- C7 counterexample: with `EMAIL_TO` (and host/user/pass) unset but
`EMAIL_SMTP_PORT` set to a non-integer string, the Notifier raises
`ValueError` instead of skipping and returning normally. -/
theorem notifier_unset_fields_can_raise :
    getenv envBadPort "EMAIL_TO".toList = none ∧
    send_email_with_attachments envBadPort [] "Daily Jobs".toList
      "See attached".toList none = Except.error PyError.valueError := ⟨rfl, rfl⟩

/-- C7 amended: provided `EMAIL_SMTP_PORT` is unset or parses as an integer,
absence (or emptiness) of any required delivery field — host, user, password
or recipients — makes the Notifier skip the send (no SMTP interaction) and
return normally. -/
theorem notifier_unconfigured_skips (env : Env)
    (fs : List (List Char × List Char)) (subject body : List Char)
    (attachments : Option (List (List Char)))
    (hport : getenv env "EMAIL_SMTP_PORT".toList = none ∨
      ∃ s n, getenv env "EMAIL_SMTP_PORT".toList = some s ∧
        pyInt s = Except.ok n)
    (habsent : truthy (getenv env "EMAIL_SMTP_HOST".toList) = false ∨
      truthy (getenv env "EMAIL_USER".toList) = false ∨
      truthy (getenv env "EMAIL_PASS".toList) = false ∨
      truthy (getenv env "EMAIL_TO".toList) = false) :
    send_email_with_attachments env fs subject body attachments =
      Except.ok EmailOutcome.skipped := by
  have hcond : (truthy (getenv env "EMAIL_SMTP_HOST".toList) &&
      truthy (getenv env "EMAIL_USER".toList) &&
      truthy (getenv env "EMAIL_PASS".toList) &&
      truthy (getenv env "EMAIL_TO".toList)) = false := by
    rcases habsent with h | h | h | h <;>
      simp only [h, Bool.and_false, Bool.false_and]
  rcases hport with hnone | ⟨s, n, hs, hok⟩
  · simp only [send_email_with_attachments, hnone, hcond]
    rfl
  · simp only [send_email_with_attachments, hs, hok, hcond]
    rfl

/-- Witness for C7 (amended): host, user and password set, `EMAIL_TO` unset,
port unset. -/
theorem notifier_unconfigured_skips_witness :
    getenv envNoRecipient "EMAIL_SMTP_PORT".toList = none ∧
    truthy (getenv envNoRecipient "EMAIL_TO".toList) = false ∧
    send_email_with_attachments envNoRecipient [] "Daily Jobs".toList
      "See attached".toList none = Except.ok EmailOutcome.skipped :=
  ⟨by decide, by decide,
    notifier_unconfigured_skips envNoRecipient [] "Daily Jobs".toList
      "See attached".toList none (Or.inl (by decide))
      (Or.inr (Or.inr (Or.inr (by decide))))⟩

/-- C10: the `int()` conversion of `EMAIL_SMTP_PORT` precedes the
configuration-presence check — a non-integer port string raises `ValueError`
no matter which required fields are absent. -/
theorem notifier_port_parsed_before_check (env : Env)
    (fs : List (List Char × List Char)) (subject body : List Char)
    (attachments : Option (List (List Char))) (s : List Char)
    (hs : getenv env "EMAIL_SMTP_PORT".toList = some s)
    (hbad : pyInt s = Except.error PyError.valueError) :
    send_email_with_attachments env fs subject body attachments =
      Except.error PyError.valueError := by
  simp only [send_email_with_attachments, hs, hbad]

/-- Witness for C10: port set to `abc`, `EMAIL_TO` unset. -/
theorem notifier_port_parsed_before_check_witness :
    getenv envAbcPort "EMAIL_TO".toList = none ∧
    send_email_with_attachments envAbcPort [] "Daily Jobs".toList
      "See attached".toList none = Except.error PyError.valueError :=
  ⟨by decide,
    notifier_port_parsed_before_check envAbcPort [] "Daily Jobs".toList
      "See attached".toList none "abc".toList rfl rfl⟩

end JobAlert
